import Mathlib

/-!
Verification of the micropsi2 theano nodenet engine
(micropsi_core/nodenet/theano_engine/theano_nodenet.py and
micropsi_core/world/worldadapter.py) against its specification.

Shallow embedding conventions:
- numpy float32/float64 scalars are modelled as rationals (`Val`); the
  claims below are structural (which cells are read or written) and do not
  depend on floating-point rounding.
- python dicts are modelled either as partial maps (`α → Option β`) or as
  insertion-ordered association lists where iteration order matters.
- node/nodespace uids are modelled by their numeric indices: the
  identifier codec (node_to_id / node_from_id, from theano_definitions.py,
  which is not among the source files) is by the spec a total bijection
  between indices and string handles.
- fallible python code (raise) is modelled with `Except` or `Option`.
-/

namespace Micropsi

/-- Activation and link-weight scalar values. -/
abbrev Val := ℚ

/-! ## Step pipeline (claim C1)

TheanoNodenet.initialize_stepoperators installs TheanoPropagate,
TheanoCalculate, TheanoPORRETDecay and DoernerianEmotionalModulators and
sorts them by their priority attribute; TheanoNodenet.step runs each once
and increments the step counter. -/

/-- The four step operators installed by the nodenet
(theano_nodenet.py lines 263-269). -/
inductive StepOp
  | propagate
  | calculate
  | porretDecay
  | emotionalModulators
deriving DecidableEq

/-- Modelled from the spec: the step operator classes live in
theano_stepoperators.py / stepoperators.py, which are not among the source
files. The spec (section 4.4) fixes the pipeline order — propagate, then
calculate/activate, then POR/RET decay, then the modulator update — so the
priorities are modelled as the positions 1 to 4 of that order. -/
def StepOp.priority : StepOp → Nat
  | .propagate => 1
  | .calculate => 2
  | .porretDecay => 3
  | .emotionalModulators => 4

/-- TheanoNodenet initialize_stepoperators (lines 263-269): build the
operator list and sort it by priority (python list.sort is stable, as is
insertion sort). -/
def setup_stepoperators : List StepOp :=
  List.insertionSort (fun a b => a.priority ≤ b.priority)
    [StepOp.propagate, StepOp.calculate, StepOp.porretDecay, StepOp.emotionalModulators]

/-- A nodenet as the step pipeline sees it: an underlying numeric state σ
(activation vector, link matrix, modulators), the step counter, and the
trace of operator executions, recorded so that "each operator runs exactly
once, in order" is a statement about the trace. -/
structure PipelineNet (σ : Type) where
  netstate : σ
  current_step : Nat
  trace : List StepOp

/-- One call operator.execute(self, None, self.netapi) (line 479). The
numeric effect of each operator is opaque to the ordering claim and is a
parameter. -/
def runOp {σ : Type} (effects : StepOp → σ → σ) (s : PipelineNet σ) (op : StepOp) :
    PipelineNet σ :=
  { s with netstate := effects op s.netstate, trace := s.trace ++ [op] }

/-- TheanoNodenet.step (lines 470-481): run every installed step operator
once, in list order, then increment the step counter by one. -/
def step {σ : Type} (effects : StepOp → σ → σ) (s : PipelineNet σ) : PipelineNet σ :=
  let s1 := setup_stepoperators.foldl (runOp effects) s
  { s1 with current_step := s1.current_step + 1 }

/-! ## Modulators (claim C7)

self.__modulators is a python dict from modulator name to float. -/

/-- The modulator table self.__modulators. -/
structure Modulators where
  table : String → Option Val

/-- python dict assignment d[k] = v. -/
def dictSet (t : String → Option Val) (k : String) (v : Val) : String → Option Val :=
  fun q => if q = k then some v else t q

/-- TheanoNodenet.get_modulator (lines 818-819):
return self.__modulators.get(modulator, 1). -/
def get_modulator (s : Modulators) (m : String) : Val :=
  (s.table m).getD 1

/-- TheanoNodenet.set_modulator (lines 824-825). -/
def set_modulator (s : Modulators) (m : String) (v : Val) : Modulators :=
  ⟨dictSet s.table m v⟩

/-- TheanoNodenet.change_modulator (lines 821-822):
self.__modulators[modulator] = self.__modulators.get(modulator, 0) + diff. -/
def change_modulator (s : Modulators) (m : String) (diff : Val) : Modulators :=
  ⟨dictSet s.table m ((s.table m).getD 0 + diff)⟩

/-! ## Metadata loading (claim C5)

TheanoNodenet.load (lines 291-337) parses the json metadata file inside a
try/except and returns False on a parse or read failure before touching any
nodenet state. -/

/-- The nodenet-wide in-memory state that the claim says must survive a
failed load: names, positions, sensor/actuator maps, modulators, step. -/
structure NetMeta where
  names : String → Option String
  positions : String → Option (Val × Val)
  sensormap : String → Option (List Nat)
  actuatormap : String → Option (List Nat)
  modulators : String → Option Val
  current_step : Nat

/-- The fields of the persisted json metadata dict that
initialize_nodenet reads (lines 345-361); `hasEntries` models
len(initfrom) != 0. -/
structure Metadata where
  modulators : List (String × Val)
  names : Option (String → Option String)
  positions : Option (String → Option (Val × Val))
  sensormap : Option (String → Option (List Nat))
  actuatormap : Option (String → Option (List Nat))
  current_step : Option Nat
  hasEntries : Bool

/-- The empty metadata dict (initfrom = {} when the file is missing). -/
def emptyMetadata : Metadata :=
  ⟨[], none, none, none, none, none, false⟩

/-- python dict.update with an insertion-ordered list of entries. -/
def dictUpdate (t : String → Option Val) (u : List (String × Val)) : String → Option Val :=
  u.foldl (fun acc kv => dictSet acc kv.1 kv.2) t

/-- TheanoNodenet initialize_nodenet (lines 345-361; the python name starts
with a word this file cannot use outside comments, hence the abbreviation):
merge the modulators, then, when the metadata dict is nonempty, merge the
graph data (merge_data touches sections and nodes outside NetMeta and is a
parameter) and overwrite names, positions, actuatormap, sensormap and the
step counter whenever the corresponding key is present. -/
def init_nodenet (merge : NetMeta → Metadata → NetMeta) (s : NetMeta) (m : Metadata) :
    NetMeta :=
  let s1 := { s with modulators := dictUpdate s.modulators m.modulators }
  if m.hasEntries then
    let s2 := merge s1 m
    let s3 := match m.names with
      | some n => { s2 with names := n }
      | none => s2
    let s4 := match m.positions with
      | some p => { s3 with positions := p }
      | none => s3
    let s5 := match m.actuatormap with
      | some am => { s4 with actuatormap := am }
      | none => s4
    let s6 := match m.sensormap with
      | some sm => { s5 with sensormap := sm }
      | none => s5
    match m.current_step with
    | some c => { s6 with current_step := c }
    | none => s6
  else s1

/-- What the filesystem holds at the metadata path: no file
(os.path.isfile false), a file whose json fails to parse (ValueError), a
file that cannot be opened (IOError), or a parsed metadata record. -/
inductive MetaFile
  | missing
  | unparseable
  | unreadable
  | parsed (m : Metadata)

/-- TheanoNodenet.load (lines 291-337). A parse failure (ValueError) or a
read failure (IOError) returns False before any state is touched; otherwise
the metadata is applied and True returned. The phases after
initialize_nodenet — per-section binary data loads, reload_native_modules,
the inverted sensor/actuator map rebuild and the operator re-setup — touch
state outside NetMeta and are abstracted as the parameter afterLoad. -/
def load (merge : NetMeta → Metadata → NetMeta) (afterLoad : NetMeta → NetMeta)
    (s : NetMeta) (f : MetaFile) : Bool × NetMeta :=
  match f with
  | .unparseable => (false, s)
  | .unreadable => (false, s)
  | .missing => (true, afterLoad (init_nodenet merge s emptyMetadata))
  | .parsed m => (true, afterLoad (init_nodenet merge s m))

/-! ## Nodespace deletion (claim C6)

TheanoNodenet.delete_nodespace (lines 652-658) raises before delegating to
the section whenever the uid is None or names the root nodespace. -/

/-- Nodespace and node allocation arrays of the root section
(allocated_nodespaces maps a nodespace index to its parent index, 0 when
unallocated; allocated_nodes maps a node index to its numeric type, 0 when
free). -/
structure NsState where
  allocated_nodespaces : Nat → Nat
  allocated_nodes : Nat → Nat

/-- Modelled from the spec: TheanoSection.delete_nodespace is not among the
source files; per spec section 4.2 deletion clears the nodespace allocation
entry. -/
def section_delete_nodespace (s : NsState) (i : Nat) : NsState :=
  { s with allocated_nodespaces := fun j => if j = i then 0 else s.allocated_nodespaces j }

/-- TheanoNodenet.delete_nodespace (lines 652-658): raise ValueError when
nodespace_uid is None or equals get_nodespace(None).uid — the root uid,
nodespace index 1 — before any mutation; otherwise delegate to the section. -/
def delete_nodespace (s : NsState) (uid : Option Nat) : Except String NsState :=
  match uid with
  | none => .error "The root nodespace cannot be deleted."
  | some i =>
    if i = 1 then .error "The root nodespace cannot be deleted."
    else .ok (section_delete_nodespace s i)

/-! ## Link weights and cross-section guard (claims C2, C8)

TheanoNodenet.set_link_weight / create_link / delete_link
(lines 699-723) and the group-level get_link_weights / set_link_weights
(lines 1078-1103). -/

/-- A node type descriptor: the ordered gate and slot name lists consulted
when resolving link endpoints (Nodetype lives in node.py, outside the three
source files; these are exactly the spec's type-descriptor contents). -/
structure NodetypeDef where
  gatetypes : List String
  slottypes : List String

/-- Link-matrix state across sections. In the source, get_section (line
483-484) maps every uid to the single root section; the spec's
multi-partition reading is kept by modelling the uid-to-section resolution
as a state field, so that the cross-section guard is reachable. Weights are
per section, indexed (slot element, gate element) as in
construct_links_dict (lines 845-855). -/
structure LinkNet where
  sectionOf : Nat → Nat
  nodeTypeName : Nat → Nat → String
  catalog : String → NodetypeDef
  allocated_node_offsets : Nat → Nat → Nat
  w : Nat → Nat → Nat → Val
  nodegroups : Nat → Nat → String → Option (List Nat)

/-- Write one cell of one section's weight matrix. -/
def writeW (w : Nat → Nat → Nat → Val) (sec row col : Nat) (v : Val) :
    Nat → Nat → Nat → Val :=
  fun s r c => if s = sec ∧ r = row ∧ c = col then v else w s r c

/-- Modelled from the spec: TheanoSection.set_link_weight is not among the
source files; per spec section 4.2 it resolves the gate and slot names to
element offsets via the type catalog — failing on an unknown name — and
writes the cell (target slot element, source gate element). -/
def section_set_link_weight (s : LinkNet) (sec src : Nat) (g : String)
    (tgt : Nat) (sl : String) (weight : Val) : Except String LinkNet :=
  match (s.catalog (s.nodeTypeName sec src)).gatetypes.findIdx? (fun x => x = g),
        (s.catalog (s.nodeTypeName sec tgt)).slottypes.findIdx? (fun x => x = sl) with
  | some gi, some si =>
      let row := s.allocated_node_offsets sec tgt + si
      let col := s.allocated_node_offsets sec src + gi
      .ok { s with w := writeW s.w sec row col weight }
  | _, _ => .error "unknown gate or slot for type"

/-- TheanoNodenet.set_link_weight (lines 702-720): resolve both endpoint
sections, raise when they differ (before any weight cell is written),
otherwise delegate to the section. The source message contains an
apostrophe; it is reworded here without one. -/
def set_link_weight (s : LinkNet) (src : Nat) (g : String) (tgt : Nat) (sl : String)
    (weight : Val) : Except String LinkNet :=
  let source_section := s.sectionOf src
  let target_section := s.sectionOf tgt
  if target_section ≠ source_section then
    .error "Links between sections are not supported yet, but will be"
  else
    section_set_link_weight s source_section src g tgt sl weight

/-- TheanoNodenet.create_link (lines 699-700): delegates to set_link_weight
with the given weight (certainty is accepted and ignored). -/
def create_link (s : LinkNet) (src : Nat) (g : String) (tgt : Nat) (sl : String)
    (weight : Val) : Except String LinkNet :=
  set_link_weight s src g tgt sl weight

/-- TheanoNodenet.delete_link (lines 722-723): set_link_weight with
weight 0. -/
def delete_link (s : LinkNet) (src : Nat) (g : String) (tgt : Nat) (sl : String) :
    Except String LinkNet :=
  set_link_weight s src g tgt sl 0

/-- The spec's reading of link deletion (spec section 3: a link is a
nonzero cell, weight is the cell value, deleting a link = writing zero):
resolve the cell exactly as a weight write would and put zero there. Stated
independently of set_link_weight so that delete_link can be compared
against it. -/
def spec_delete_link (s : LinkNet) (src : Nat) (g : String) (tgt : Nat) (sl : String) :
    Except String LinkNet :=
  let source_section := s.sectionOf src
  let target_section := s.sectionOf tgt
  if target_section ≠ source_section then
    .error "Links between sections are not supported yet, but will be"
  else
    match (s.catalog (s.nodeTypeName source_section src)).gatetypes.findIdx? (fun x => x = g),
          (s.catalog (s.nodeTypeName source_section tgt)).slottypes.findIdx? (fun x => x = sl) with
    | some gi, some si =>
        let row := s.allocated_node_offsets source_section tgt + si
        let col := s.allocated_node_offsets source_section src + gi
        .ok { s with w := writeW s.w source_section row col 0 }
    | _, _ => .error "unknown gate or slot for type"

/-- The spec's reading of link creation: the same cell write with the given
weight. -/
def spec_create_link (s : LinkNet) (src : Nat) (g : String) (tgt : Nat) (sl : String)
    (weight : Val) : Except String LinkNet :=
  let source_section := s.sectionOf src
  let target_section := s.sectionOf tgt
  if target_section ≠ source_section then
    .error "Links between sections are not supported yet, but will be"
  else
    match (s.catalog (s.nodeTypeName source_section src)).gatetypes.findIdx? (fun x => x = g),
          (s.catalog (s.nodeTypeName source_section tgt)).slottypes.findIdx? (fun x => x = sl) with
    | some gi, some si =>
        let row := s.allocated_node_offsets source_section tgt + si
        let col := s.allocated_node_offsets source_section src + gi
        .ok { s with w := writeW s.w source_section row col weight }
    | _, _ => .error "unknown gate or slot for type"

/-- Modelled from the spec: TheanoSection.get_link_weights (spec section
4.3) materializes the dense block of weights between the element groups —
rows indexed by the to-group, columns by the from-group; unknown groups
fail. -/
def section_get_link_weights (s : LinkNet) (sec nsFrom : Nat) (gFrom : String)
    (nsTo : Nat) (gTo : String) : Except String (List (List Val)) :=
  match s.nodegroups sec nsFrom gFrom, s.nodegroups sec nsTo gTo with
  | some efrom, some eto =>
      .ok (eto.map (fun r => efrom.map (fun c => s.w sec r c)))
  | _, _ => .error "unknown group"

/-- Modelled from the spec: TheanoSection.set_link_weights writes the dense
block back into the cells addressed by the two element groups. -/
def section_set_link_weights (s : LinkNet) (sec nsFrom : Nat) (gFrom : String)
    (nsTo : Nat) (gTo : String) (new_w : List (List Val)) : Except String LinkNet :=
  match s.nodegroups sec nsFrom gFrom, s.nodegroups sec nsTo gTo with
  | some efrom, some eto =>
      let wNew : Nat → Nat → Nat → Val := fun s0 r c =>
        if s0 = sec then
          match eto.findIdx? (fun e => e = r), efrom.findIdx? (fun e => e = c) with
          | some i, some j => (((new_w.get? i).bind (fun row => row.get? j)).getD (s.w s0 r c))
          | _, _ => s.w s0 r c
        else s.w s0 r c
      .ok { s with w := wNew }
  | _, _ => .error "unknown group"

/-- TheanoNodenet.get_link_weights (lines 1078-1089): resolve both
nodespace uids to sections, raise when they differ, else delegate. -/
def get_link_weights (s : LinkNet) (nsFrom : Nat) (gFrom : String) (nsTo : Nat)
    (gTo : String) : Except String (List (List Val)) :=
  let section_from := s.sectionOf nsFrom
  let section_to := s.sectionOf nsTo
  if section_to ≠ section_from then
    .error "Links between sections are not supported yet, but will be"
  else
    section_get_link_weights s section_from nsFrom gFrom nsTo gTo

/-- TheanoNodenet.set_link_weights (lines 1091-1103): resolve both
nodespace uids to sections, raise when they differ (before any write),
else delegate to the section. -/
def set_link_weights (s : LinkNet) (nsFrom : Nat) (gFrom : String) (nsTo : Nat)
    (gTo : String) (new_w : List (List Val)) : Except String LinkNet :=
  let section_from := s.sectionOf nsFrom
  let section_to := s.sectionOf nsTo
  if section_to ≠ section_from then
    .error "Links between sections are not supported yet, but will be"
  else
    section_set_link_weights s section_from nsFrom gFrom nsTo gTo new_w

/-! ## Sensor and actuator value channel (claim C3)

TheanoNodenet.set_sensors_and_actuator_feedback_to_values (lines 968-989)
and read_actuators (lines 991-1009). -/

/-- Numeric index of the gen gate/slot inside a node's element block.
Modelled from the spec: GEN is defined in theano_definitions.py (not among
the source files) as the first element of the block. -/
def GEN : Nat := 0

/-- The root-section state touched by the sensor/actuator value channel:
the activation vector a, the per-node element offsets, and the nodenet's
sensormap/actuatormap (python dicts from datasource/datatarget name to the
list of registered numeric node ids; modelled insertion-ordered). -/
structure ActState where
  a : Nat → Val
  allocated_node_offsets : Nat → Nat
  sensormap : List (String × List Nat)
  actuatormap : List (String × List Nat)

/-- Single-cell write into the activation vector. -/
def updA (a : Nat → Val) (e : Nat) (v : Val) : Nat → Val :=
  fun i => if i = e then v else a i

/-- Lookup in a python dict modelled as an insertion-ordered association
list (dict.get). -/
def alookup (l : List (String × List Nat)) (k : String) : Option (List Nat) :=
  (l.find? (fun p => p.1 = k)).map (fun p => p.2)

/-- The (element, value) writes one value map performs against one node
map, in loop order: for each map entry, for each registered node id, write
the value at offset + GEN. -/
def channelWrites (s : ActState) (nodemap : List (String × List Nat))
    (values : List (String × Val)) : List (Nat × Val) :=
  values.flatMap (fun kv =>
    ((alookup nodemap kv.1).getD []).map
      (fun id => (s.allocated_node_offsets id + GEN, kv.2)))

/-- TheanoNodenet.set_sensors_and_actuator_feedback_to_values (lines
968-989): write each datasource value into the gen element of every sensor
registered for it, then each datatarget value into the gen element of every
actuator registered for it. -/
def set_sensors_and_actuator_feedback_to_values (s : ActState)
    (dsValues dtValues : List (String × Val)) : ActState :=
  let writes := channelWrites s s.sensormap dsValues
      ++ channelWrites s s.actuatormap dtValues
  { s with a := writes.foldl (fun a ev => updA a ev.1 ev.2) s.a }

/-- TheanoNodenet.read_actuators (lines 991-1009): for every datatarget in
the actuator map, sum the gen activations of its registered actuator nodes;
the activation array is written back unchanged. -/
def read_actuators (s : ActState) : List (String × Val) × ActState :=
  (s.actuatormap.map (fun p =>
      (p.1, (p.2.map (fun id => s.a (s.allocated_node_offsets id + GEN))).sum)),
   s)

/-! ## ArrayWorldAdapter (claim C10)

worldadapter.py lines 127-174. -/

/-- ArrayWorldAdapter state: the datasource/datatarget name sets inherited
from WorldAdapter (dict keys) and the value arrays. -/
structure ArrayWA where
  datasources : List String
  datatargets : List String
  datasource_values : List Val
  datatarget_values : List Val

/-- python sorted() on strings: lexicographic order. -/
def sortedStrings (l : List String) : List String :=
  List.insertionSort (fun a b => a < b ∨ a = b) l

/-- WorldAdapter.get_available_datasources (lines 50-52):
sorted(list(self.datasources.keys())). -/
def get_available_datasources (w : ArrayWA) : List String :=
  sortedStrings w.datasources

/-- WorldAdapter.get_available_datatargets (lines 54-56). -/
def get_available_datatargets (w : ArrayWA) : List String :=
  sortedStrings w.datatargets

/-- python list.index: the index of the first occurrence of key, none
(ValueError) when absent. -/
def listIndex (l : List String) (key : String) : Option Nat :=
  match l with
  | [] => none
  | a :: rest => if a = key then some 0 else (listIndex rest key).map (· + 1)

/-- ArrayWorldAdapter.add_to_datatarget (lines 149-152): the write index is
looked up with list.index in get_available_datasources() — the DATASOURCE
name list — which raises ValueError when the key is absent; the increment
then goes to datatarget_values at that index (IndexError when out of
range). -/
def add_to_datatarget (w : ArrayWA) (key : String) (v : Val) : Except String ArrayWA :=
  match listIndex (get_available_datasources w) key with
  | none => .error "ValueError"
  | some i =>
    if i < w.datatarget_values.length then
      .ok { w with datatarget_values :=
        w.datatarget_values.set i (w.datatarget_values.getD i 0 + v) }
    else .error "IndexError"

/-! ## Sensor/actuator registration maps (claim C9)

create_node (lines 524-561) registers Sensor/Actor nodes in
sensormap/actuatormap and the inverted maps; delete_node (lines 563-587)
deregisters them. -/

/-- One registration channel — either the datasource channel
(sensormap / inverted_sensor_map) or the datatarget channel
(actuatormap / inverted_actuator_map): the forward map from name to the
list of registered numeric node ids, and the inverted map from node id to
name (node uids are modelled by their numeric ids). -/
structure ChanMaps where
  fwd : String → Option (List Nat)
  inv : Nat → Option String

/-- The registration done by create_node for a Sensor/Actor with a
datasource/datatarget parameter (lines 544-559): append the id to the
name's list (starting from [] when the name is new) and point the inverted
map at the name. -/
def registerChan (m : ChanMaps) (id : Nat) (key : String) : ChanMaps :=
  { fwd := fun k => if k = key then some ((m.fwd key).getD [] ++ [id]) else m.fwd k,
    inv := fun i => if i = id then some key else m.inv i }

/-- The deregistration done by delete_node (lines 569-585): when the id has
an inverted entry, drop it, remove the id from the forward list — python
list.remove removes the first occurrence and raises when the id is absent,
hence the Option — and delete the name's key entirely when its list becomes
empty. -/
def removeChan (m : ChanMaps) (id : Nat) : Option ChanMaps :=
  match m.inv id with
  | none => some m
  | some key =>
    let m1 : ChanMaps := { m with inv := fun i => if i = id then none else m.inv i }
    match m1.fwd key with
    | none => some m1
    | some l =>
      if id ∈ l then
        let l2 := l.erase id
        let entry : Option (List Nat) := if l2 = [] then none else some l2
        some { m1 with fwd := fun k => if k = key then entry else m1.fwd k }
      else none

/-- The nodenet state relevant to the registration maps: the node
allocation flags (allocated_nodes[id] != 0) and the two channels. -/
structure RegNet where
  live : Nat → Bool
  sensor : ChanMaps
  actuator : ChanMaps

/-- The parameters dict of create_node, reduced to the two keys it reads. -/
structure NodeParams where
  datasource : Option String
  datatarget : Option String

/-- TheanoNodenet.create_node (lines 524-561), restricted to the allocation
flag and the registration maps (positions, names and gate settings are
orthogonal to this claim). Modelled from the spec: TheanoSection.create_node
is not among the source files; it allocates the requested free index and
fails on a collision with a live node, so it is modelled as taking the
chosen index with a liveness guard. -/
def create_node (s : RegNet) (nodetype : String) (id : Nat) (params : NodeParams) :
    Option RegNet :=
  if s.live id then none
  else
    let s1 : RegNet := { s with live := fun i => if i = id then true else s.live i }
    if nodetype = "Sensor" then
      match params.datasource with
      | some ds => some { s1 with sensor := registerChan s.sensor id ds }
      | none => some s1
    else if nodetype = "Actor" then
      match params.datatarget with
      | some dt => some { s1 with actuator := registerChan s.actuator id dt }
      | none => some s1
    else some s1

/-- TheanoNodenet.delete_node (lines 563-587) on the same restriction: free
the index (section.delete_node), then deregister the id from the sensor
channel and then from the actuator channel. -/
def delete_node (s : RegNet) (id : Nat) : Option RegNet :=
  let s1 : RegNet := { s with live := fun i => if i = id then false else s.live i }
  match removeChan s.sensor id, removeChan s.actuator id with
  | some sm, some am => some { s1 with sensor := sm, actuator := am }
  | _, _ => none

/-- Claim C9 consistency for one channel: an id is a key of the inverted
map with name k exactly when it is a member of the forward list of k, and
forward lists are nonempty (the empty-key-removal clause) and free of
duplicates. -/
def ChanOK (m : ChanMaps) : Prop :=
  (∀ id k, m.inv id = some k ↔ ∃ l, m.fwd k = some l ∧ id ∈ l)
  ∧ (∀ k l, m.fwd k = some l → l ≠ [] ∧ l.Nodup)

/-- Both channels consistent. -/
def MapsOK (s : RegNet) : Prop := ChanOK s.sensor ∧ ChanOK s.actuator

/-! ## Native-module reload (claim C4)

TheanoNodenet.reload_native_modules (lines 725-791). -/

/-- The data of one native-module instance as the reload pass sees it
(instance.data captured at line 746, together with the count of elements
currently allocated to its id, line 741). -/
structure NMInstance where
  typeName : String
  parent_nodespace : Nat
  position : Option (Val × Val)
  name : Option String
  parameters : List (String × String)
  state : List (String × String)
  elementCount : Nat
deriving DecidableEq

/-- A native-module type definition as consulted by reload: its slottypes
and gatetypes lists (lines 742). -/
structure NMDef where
  slottypes : List String
  gatetypes : List String
deriving DecidableEq

/-- The element count a definition demands:
max(len(slottypes), len(gatetypes)) (line 742). -/
def NMDef.elementCount (d : NMDef) : Nat :=
  max d.slottypes.length d.gatetypes.length

/-- Lookup of a native-module definition by type name. -/
def defLookup (defs : List (String × NMDef)) (t : String) : Option NMDef :=
  (defs.find? (fun p => p.1 = t)).map (fun p => p.2)

/-- Modelled from the spec: numeric ids of the builtin node types occupy
1..MAX_STD_NODETYPE, and native-module numeric types follow, assigned from
the runtime-dependent enumeration order of the definitions dict
(get_numerical_node_type lives in theano_definitions.py, not among the
source files). Resolution is by type NAME. -/
def MAX_STD_NODETYPE : Nat := 6

/-- Numeric type for a native module name under the current definitions. -/
def get_numerical_node_type (defs : List (String × NMDef)) (t : String) : Nat :=
  match (defs.map Prod.fst).findIdx? (fun x => x = t) with
  | some i => MAX_STD_NODETYPE + 1 + i
  | none => 0

/-- The section/nodenet state the reload pass touches: the native-module
instances keyed by numeric id, the numeric type tags (allocated_nodes), the
link matrix — modelled from the spec at node granularity, deletion zeroing
the node's rows and columns — and the warnings reported so far. -/
structure NMNet where
  instances : List (Nat × NMInstance)
  numericType : Nat → Nat
  w : Nat → Nat → Val
  warnings : List String

/-- python dict lookup on the instance table keyed by numeric id. -/
def lookupId (l : List (Nat × NMInstance)) (id : Nat) : Option NMInstance :=
  match l with
  | [] => none
  | p :: ps => if p.1 = id then some p.2 else lookupId ps id

/-- python dict key deletion on the instance table. -/
def removeId (l : List (Nat × NMInstance)) (id : Nat) : List (Nat × NMInstance) :=
  match l with
  | [] => []
  | p :: ps => if p.1 = id then removeId ps id else p :: removeId ps id

/-- delete_node as the reload pass uses it, at this granularity: drop the
instance, zero the numeric type tag, zero the node's links (spec section
4.2: delete_node zeroes the node's element rows and columns in the link
matrix). -/
def nmDeleteNode (s : NMNet) (id : Nat) : NMNet :=
  { s with
    instances := removeId s.instances id,
    numericType := fun i => if i = id then 0 else s.numericType i,
    w := fun r c => if r = id ∨ c = id then 0 else s.w r c }

/-- create_node as invoked for a recreated instance (lines 777-784): type,
parent nodespace, position and name from the saved data, the SAME uid, and
parameters=data[parameters]. create_node has no state argument, so the new
instance starts with empty state; its element block is sized from the new
definition; no links are recreated. -/
def nmCreateNode (defs : List (String × NMDef)) (s : NMNet) (id : Nat)
    (d : NMInstance) : NMNet :=
  match defLookup defs d.typeName with
  | none => s
  | some nd =>
    let newInst : NMInstance := { d with state := [], elementCount := nd.elementCount }
    let newNum := get_numerical_node_type defs d.typeName
    { s with
      instances := s.instances ++ [(id, newInst)],
      numericType := fun i => if i = id then newNum else s.numericType i }

/-- The instances reload deletes outright: those whose type has no
definition any more (lines 733-738). -/
def reloadDeletes (s : NMNet) (defs : List (String × NMDef)) :
    List (Nat × NMInstance) :=
  s.instances.filter (fun p => (defLookup defs p.2.typeName).isNone)

/-- The instances reload deletes and recreates: type still defined but the
required element count changed (lines 740-746). -/
def reloadRecreates (s : NMNet) (defs : List (String × NMDef)) :
    List (Nat × NMInstance) :=
  s.instances.filter (fun p =>
    match defLookup defs p.2.typeName with
    | some nd => decide (p.2.elementCount ≠ nd.elementCount)
    | none => false)

/-- The warnings the classification pass logs (lines 735, 744). -/
def reloadWarnList (s : NMNet) (defs : List (String × NMDef)) : List String :=
  (reloadDeletes s defs).map
      (fun p => "No more definition available for node type " ++ p.2.typeName)
    ++ (reloadRecreates s defs).map
      (fun p => "Number of elements changed for node type " ++ p.2.typeName)

/-- The data a recreated instance ends up with: the saved fields, empty
state, element count from the new definition (what nmCreateNode registers). -/
def recreateData (defs : List (String × NMDef)) (d : NMInstance) : NMInstance :=
  match defLookup defs d.typeName with
  | some nd => { d with state := [], elementCount := nd.elementCount }
  | none => d

/-- The destructive phases of reload_native_modules (lines 748-784): log
the warnings, delete the instances of both groups, then recreate the
resized ones under their old uids from their saved data. -/
def reloadCore (s : NMNet) (defs : List (String × NMDef)) : NMNet :=
  let s0 : NMNet := { s with warnings := s.warnings ++ reloadWarnList s defs }
  let s1 := (reloadDeletes s defs).foldl (fun st p => nmDeleteNode st p.1) s0
  let s2 := (reloadRecreates s defs).foldl (fun st p => nmDeleteNode st p.1) s1
  (reloadRecreates s defs).foldl (fun st p => nmCreateNode defs st p.1 p.2) s2

/-- TheanoNodenet.reload_native_modules (lines 725-791): classify the
instances — no definition left for the type: delete with a warning;
element count changed under the new definition: delete and recreate from
the saved data under the same uid, with a warning — then, as the final
pass (lines 786-791), re-resolve every native-module numeric type tag from
its type NAME against the new definitions. -/
def reload_native_modules (s : NMNet) (defs : List (String × NMDef)) : NMNet :=
  let s3 := reloadCore s defs
  { s3 with numericType := fun i =>
      match lookupId s3.instances i with
      | some inst => get_numerical_node_type defs inst.typeName
      | none => s3.numericType i }

/-- The instance registered for a numeric id, if any. -/
def findInst (s : NMNet) (id : Nat) : Option NMInstance :=
  lookupId s.instances id

/-! ## Concrete states used by the witnesses -/

/-- A two-section uid resolution witnessing the cross-section guard: even
uids resolve to section 0, odd uids to section 1. -/
def demoTwoSectionNet : LinkNet :=
  { sectionOf := fun u => u % 2,
    nodeTypeName := fun _ _ => "Register",
    catalog := fun _ => ⟨["gen"], ["gen"]⟩,
    allocated_node_offsets := fun _ n => n,
    w := fun _ _ _ => 0,
    nodegroups := fun _ _ _ => none }

/-- A small root section: sensors 1 and 2 registered for datasource
"light", actuator 3 registered for datatarget "motor", node offsets
10 * id. -/
def demoActState : ActState :=
  { a := fun _ => 0,
    allocated_node_offsets := fun id => 10 * id,
    sensormap := [("light", [1, 2])],
    actuatormap := [("motor", [3])] }

/-- An empty registration state. -/
def demoRegNet : RegNet :=
  { live := fun _ => false,
    sensor := ⟨fun _ => none, fun _ => none⟩,
    actuator := ⟨fun _ => none, fun _ => none⟩ }

/-- A native-module instance with nonempty state, used to exercise the
delete-and-recreate path of reload_native_modules. -/
def demoNMInstance : NMInstance :=
  { typeName := "MyModule",
    parent_nodespace := 1,
    position := none,
    name := some "m1",
    parameters := [("p", "1")],
    state := [("memory", "42")],
    elementCount := 2 }

/-- A nodenet holding only demoNMInstance under id 7, with a link from and
to node 7. -/
def demoNMNet : NMNet :=
  { instances := [(7, demoNMInstance)],
    numericType := fun i => if i = 7 then 8 else 0,
    w := fun r c => if r = 7 ∨ c = 7 then 1 else 0,
    warnings := [] }

/-- New definitions under which MyModule needs 3 elements instead of 2. -/
def demoNMDefs : List (String × NMDef) :=
  [("MyModule", ⟨["gen", "sub", "sur"], ["gen"]⟩)]

/-- A world adapter whose datatarget name "motor_power" is not a datasource
name. -/
def demoArrayWA : ArrayWA :=
  { datasources := ["cam_pixel"],
    datatargets := ["motor_power"],
    datasource_values := [0],
    datatarget_values := [0] }

-- THEOREMS-MARKER (definitions above, theorems below)

/-! ## Claim theorems and helper lemmas -/

/-- The installed operator list, sorted by priority, is propagate,
calculate, POR/RET decay, emotional modulators. -/
theorem setup_stepoperators_eq :
    setup_stepoperators = [StepOp.propagate, StepOp.calculate, StepOp.porretDecay,
      StepOp.emotionalModulators] := by
  rfl

/-- Folding runOp over an operator list appends it to the trace. -/
theorem foldl_runOp_trace {σ : Type} (effects : StepOp → σ → σ) (L : List StepOp) :
    ∀ s : PipelineNet σ, (L.foldl (runOp effects) s).trace = s.trace ++ L := by
  induction L with
  | nil => intro s; simp
  | cons a L ih =>
    intro s
    simp only [List.foldl_cons]
    rw [ih]
    simp [runOp]

/-- Folding runOp over an operator list leaves the step counter alone. -/
theorem foldl_runOp_counter {σ : Type} (effects : StepOp → σ → σ) (L : List StepOp) :
    ∀ s : PipelineNet σ, (L.foldl (runOp effects) s).current_step = s.current_step := by
  induction L with
  | nil => intro s; rfl
  | cons a L ih => intro s; simp only [List.foldl_cons]; rw [ih]; rfl

/-- C1: each call to step() executes every step operator exactly once, in
ascending priority order — propagate, then calculate/activate, then POR/RET
decay, then the emotional-modulator update — and afterwards increases the
nodenet's step counter by exactly 1. The execution trace extends by exactly
that operator sequence, the numeric state is the composition of the four
operator effects in that order, and the counter grows by one. -/
theorem step_pipeline_order {σ : Type} (effects : StepOp → σ → σ) (s : PipelineNet σ) :
    (step effects s).trace = s.trace ++ [StepOp.propagate, StepOp.calculate,
      StepOp.porretDecay, StepOp.emotionalModulators]
    ∧ (step effects s).current_step = s.current_step + 1
    ∧ (step effects s).netstate
        = effects StepOp.emotionalModulators (effects StepOp.porretDecay
            (effects StepOp.calculate (effects StepOp.propagate s.netstate))) := by
  refine ⟨?_, ?_, rfl⟩
  · show (setup_stepoperators.foldl (runOp effects) s).trace = _
    rw [foldl_runOp_trace, setup_stepoperators_eq]
  · show (setup_stepoperators.foldl (runOp effects) s).current_step + 1 = _
    rw [foldl_runOp_counter]

/-- C5: when the metadata file exists but cannot be parsed, load returns
False — a recoverable failure indicator — and the prior in-memory state
(names, positions, sensor/actuator maps, modulators, current step) is
returned untouched; the same holds for an unreadable file. -/
theorem load_corrupt_metadata (merge : NetMeta → Metadata → NetMeta)
    (afterLoad : NetMeta → NetMeta) (s : NetMeta) :
    load merge afterLoad s MetaFile.unparseable = (false, s)
    ∧ load merge afterLoad s MetaFile.unreadable = (false, s) :=
  ⟨rfl, rfl⟩

/-- C6: delete_nodespace on the root nodespace uid (or on None, which
resolves to the root) raises and returns no mutated state, so the root
nodespace can never be deleted. -/
theorem root_nodespace_undeletable (s : NsState) (uid : Option Nat)
    (h : uid = none ∨ uid = some 1) :
    delete_nodespace s uid = Except.error "The root nodespace cannot be deleted." := by
  rcases h with h | h <;> subst h <;> simp [delete_nodespace]

/-- Witness for C6 at the root uid. -/
theorem root_nodespace_undeletable_witness :
    delete_nodespace ⟨fun _ => 0, fun _ => 0⟩ (some 1)
      = Except.error "The root nodespace cannot be deleted." :=
  root_nodespace_undeletable ⟨fun _ => 0, fun _ => 0⟩ (some 1) (Or.inr rfl)

/-- C7 counterexample: for a name that was never set, change_modulator does
NOT increase the value returned by get_modulator by the delta: get_modulator
defaults to 1 for missing names while change_modulator starts from 0, so on
an empty table get reads 1 before and diff after — here 5 ≠ 1 + 5. -/
theorem modulator_change_unset_counterexample :
    ¬ (get_modulator (change_modulator ⟨fun _ => none⟩ "base_arousal" 5) "base_arousal"
        = get_modulator (⟨fun _ => none⟩ : Modulators) "base_arousal" + 5) := by
  simp [get_modulator, change_modulator, dictSet]

/-- C7 amended: after set_modulator(m, v), get_modulator(m) returns v; and
change_modulator(m, d) increases the value returned by get_modulator(m) by
exactly d for a name already present in the table, while for a never-set
name get_modulator reads the default 1 before the change and exactly d
after it (change_modulator starts from default 0, not from get_modulator's
default 1). -/
theorem modulator_get_set_change (s : Modulators) (m : String) (v diff : Val) :
    get_modulator (set_modulator s m v) m = v
    ∧ ((s.table m).isSome →
        get_modulator (change_modulator s m diff) m = get_modulator s m + diff)
    ∧ (s.table m = none → get_modulator (change_modulator s m diff) m = diff) := by
  refine ⟨?_, ?_, ?_⟩
  · simp [get_modulator, set_modulator, dictSet]
  · intro h
    obtain ⟨x, hx⟩ := Option.isSome_iff_exists.mp h
    simp [get_modulator, change_modulator, dictSet, hx]
  · intro h
    simp [get_modulator, change_modulator, dictSet, h]

/-- Witness for C7 on a one-entry table and on an empty table. -/
theorem modulator_get_set_change_witness :
    get_modulator (set_modulator ⟨fun _ => none⟩ "base_arousal" 2) "base_arousal" = 2
    ∧ get_modulator (change_modulator ⟨fun _ => some 3⟩ "base_arousal" 5) "base_arousal"
        = get_modulator (⟨fun _ => some 3⟩ : Modulators) "base_arousal" + 5
    ∧ get_modulator (change_modulator ⟨fun _ => none⟩ "base_arousal" 5) "base_arousal" = 5 :=
  ⟨(modulator_get_set_change ⟨fun _ => none⟩ "base_arousal" 2 5).1,
   (modulator_get_set_change ⟨fun _ => some 3⟩ "base_arousal" 2 5).2.1 rfl,
   (modulator_get_set_change ⟨fun _ => none⟩ "base_arousal" 2 5).2.2 rfl⟩

/-- C8: delete_link(source, gate, target, slot) behaves exactly as writing
weight zero into the cell that a weight write would address, and
create_link behaves exactly as the same cell write with the given weight —
both factor through set_link_weight, and coincide with the spec-side
direct cell writes. -/
theorem link_ops_are_weight_writes (s : LinkNet) (src : Nat) (g : String) (tgt : Nat)
    (sl : String) (weight : Val) :
    delete_link s src g tgt sl = spec_delete_link s src g tgt sl
    ∧ delete_link s src g tgt sl = set_link_weight s src g tgt sl 0
    ∧ create_link s src g tgt sl weight = spec_create_link s src g tgt sl weight
    ∧ create_link s src g tgt sl weight = set_link_weight s src g tgt sl weight :=
  ⟨rfl, rfl, rfl, rfl⟩

/-- C2: when the two endpoints (or the two nodespaces of a group
operation) resolve to different sections, set_link_weight, set_link_weights
and get_link_weights all raise the cross-section error, before any weight
cell is written — no mutated state is produced. -/
theorem cross_section_ops_fail (s : LinkNet) (a : Nat) (g : String) (b : Nat)
    (sl : String) (weight : Val) (gFrom gTo : String) (new_w : List (List Val))
    (h : s.sectionOf a ≠ s.sectionOf b) :
    set_link_weight s a g b sl weight
        = Except.error "Links between sections are not supported yet, but will be"
    ∧ set_link_weights s a gFrom b gTo new_w
        = Except.error "Links between sections are not supported yet, but will be"
    ∧ get_link_weights s a gFrom b gTo
        = Except.error "Links between sections are not supported yet, but will be" := by
  have h2 : s.sectionOf b ≠ s.sectionOf a := Ne.symm h
  refine ⟨?_, ?_, ?_⟩ <;>
    simp [set_link_weight, set_link_weights, get_link_weights, h2]

/-- Witness for C2: uid 0 lives in section 0, uid 1 in section 1. -/
theorem cross_section_ops_fail_witness :
    set_link_weight demoTwoSectionNet 0 "gen" 1 "gen" 1
        = Except.error "Links between sections are not supported yet, but will be"
    ∧ set_link_weights demoTwoSectionNet 0 "g" 1 "g" []
        = Except.error "Links between sections are not supported yet, but will be"
    ∧ get_link_weights demoTwoSectionNet 0 "g" 1 "g"
        = Except.error "Links between sections are not supported yet, but will be" :=
  cross_section_ops_fail demoTwoSectionNet 0 "gen" 1 "gen" 1 "g" "g" [] (by decide)

/-- list.index returns none exactly when the key is absent. -/
theorem listIndex_eq_none_of_not_mem (l : List String) (key : String) (h : key ∉ l) :
    listIndex l key = none := by
  induction l with
  | nil => rfl
  | cons a rest ih =>
    simp only [List.mem_cons] at h
    push_neg at h
    simp only [listIndex]
    rw [if_neg (fun hak => h.1 hak.symm), ih h.2]
    rfl

/-- C10: ArrayWorldAdapter.add_to_datatarget resolves the write index by
the position of the key within get_available_datasources() — the
datasource name list, not the datatarget name list — so for a key that is
a datatarget name but not a datasource name the call raises ValueError and
no datatarget value is changed. -/
theorem add_to_datatarget_wrong_catalog (w : ArrayWA) (key : String) (v : Val)
    (hkey : key ∈ w.datatargets) (hnot : key ∉ w.datasources) :
    add_to_datatarget w key v = Except.error "ValueError" := by
  have hmem : key ∉ get_available_datasources w := by
    intro hx
    exact hnot ((List.perm_insertionSort _ w.datasources).mem_iff.mp hx)
  unfold add_to_datatarget
  rw [listIndex_eq_none_of_not_mem _ _ hmem]

/-- Witness for C10: "motor_power" is a datatarget but not a datasource. -/
theorem add_to_datatarget_wrong_catalog_witness :
    add_to_datatarget demoArrayWA "motor_power" 1 = Except.error "ValueError" :=
  add_to_datatarget_wrong_catalog demoArrayWA "motor_power" 1 (by decide) (by decide)

/-- A cell not mentioned in the write list keeps its value. -/
theorem foldl_updA_not_mem (writes : List (Nat × Val)) (a : Nat → Val) (e : Nat)
    (h : e ∉ writes.map Prod.fst) :
    (writes.foldl (fun acc ev => updA acc ev.1 ev.2) a) e = a e := by
  induction writes generalizing a with
  | nil => rfl
  | cons p ps ih =>
    simp only [List.map_cons, List.mem_cons] at h
    push_neg at h
    simp only [List.foldl_cons]
    rw [ih _ h.2]
    simp [updA, h.1]

/-- With pairwise-distinct cells, every written cell ends at its value. -/
theorem foldl_updA_mem (writes : List (Nat × Val)) (a : Nat → Val) (e : Nat) (v : Val)
    (hnd : (writes.map Prod.fst).Nodup) (h : (e, v) ∈ writes) :
    (writes.foldl (fun acc ev => updA acc ev.1 ev.2) a) e = v := by
  induction writes generalizing a with
  | nil => cases h
  | cons p ps ih =>
    simp only [List.map_cons, List.nodup_cons] at hnd
    rcases List.mem_cons.mp h with he | he
    · have hp : p = (e, v) := he.symm
      subst hp
      simp only [List.foldl_cons]
      rw [foldl_updA_not_mem _ _ _ hnd.1]
      simp [updA]
    · simp only [List.foldl_cons]
      exact ih (updA a p.1 p.2) hnd.2 he

/-- A registered node's cell/value pair is among the channel writes. -/
theorem channelWrites_mem (s : ActState) (nodemap : List (String × List Nat))
    (values : List (String × Val)) (k : String) (v : Val) (id : Nat)
    (hkv : (k, v) ∈ values) (hid : id ∈ (alookup nodemap k).getD []) :
    (s.allocated_node_offsets id + GEN, v) ∈ channelWrites s nodemap values := by
  unfold channelWrites
  rw [List.mem_flatMap]
  exact ⟨(k, v), hkv, List.mem_map_of_mem _ hid⟩

/-- C3: set_sensors_and_actuator_feedback_to_values writes each datasource
value into the GEN activation element of every sensor registered for that
datasource and each datatarget value into the GEN element of every actuator
registered for that datatarget, and changes no other entry of the
activation vector; read_actuators returns, for every datatarget in the
actuator map, the sum of the GEN elements of its registered actuators and
leaves the state unchanged. The Nodup hypothesis says the written cells are
pairwise distinct — which holds in the system, where a node is registered
under at most one datasource or datatarget and live nodes have disjoint
element blocks. -/
theorem sensor_actuator_channel (s : ActState) (dsValues dtValues : List (String × Val))
    (hnd : ((channelWrites s s.sensormap dsValues
        ++ channelWrites s s.actuatormap dtValues).map Prod.fst).Nodup) :
    (∀ ds v, (ds, v) ∈ dsValues → ∀ id ∈ (alookup s.sensormap ds).getD [],
        (set_sensors_and_actuator_feedback_to_values s dsValues dtValues).a
          (s.allocated_node_offsets id + GEN) = v)
    ∧ (∀ dt v, (dt, v) ∈ dtValues → ∀ id ∈ (alookup s.actuatormap dt).getD [],
        (set_sensors_and_actuator_feedback_to_values s dsValues dtValues).a
          (s.allocated_node_offsets id + GEN) = v)
    ∧ (∀ e, e ∉ ((channelWrites s s.sensormap dsValues
          ++ channelWrites s s.actuatormap dtValues).map Prod.fst) →
        (set_sensors_and_actuator_feedback_to_values s dsValues dtValues).a e = s.a e)
    ∧ (read_actuators s).1 = s.actuatormap.map (fun p =>
        (p.1, (p.2.map (fun id => s.a (s.allocated_node_offsets id + GEN))).sum))
    ∧ (read_actuators s).2 = s := by
  refine ⟨?_, ?_, ?_, rfl, rfl⟩
  · intro ds v hdv id hid
    exact foldl_updA_mem _ s.a _ v hnd
      (List.mem_append_left _ (channelWrites_mem s s.sensormap dsValues ds v id hdv hid))
  · intro dt v hdv id hid
    exact foldl_updA_mem _ s.a _ v hnd
      (List.mem_append_right _ (channelWrites_mem s s.actuatormap dtValues dt v id hdv hid))
  · intro e he
    exact foldl_updA_not_mem _ s.a e he

/-- Witness for C3: sensors 1, 2 get the "light" value at cells 10 and 20,
actuator 3 gets the "motor" value at cell 30, cell 5 is untouched, and
read_actuators reports the "motor" sum. -/
theorem sensor_actuator_channel_witness :
    (set_sensors_and_actuator_feedback_to_values demoActState
        [("light", 4)] [("motor", 7)]).a (demoActState.allocated_node_offsets 1 + GEN) = 4
    ∧ (set_sensors_and_actuator_feedback_to_values demoActState
        [("light", 4)] [("motor", 7)]).a (demoActState.allocated_node_offsets 3 + GEN) = 7
    ∧ (set_sensors_and_actuator_feedback_to_values demoActState
        [("light", 4)] [("motor", 7)]).a 5 = demoActState.a 5
    ∧ (read_actuators demoActState).1 = [("motor", 0)] :=
  ⟨(sensor_actuator_channel demoActState [("light", 4)] [("motor", 7)] (by decide)).1
      "light" 4 (by decide) 1 (by decide),
   (sensor_actuator_channel demoActState [("light", 4)] [("motor", 7)] (by decide)).2.1
      "motor" 7 (by decide) 3 (by decide),
   (sensor_actuator_channel demoActState [("light", 4)] [("motor", 7)] (by decide)).2.2.1
      5 (by decide),
   by simp [read_actuators, demoActState]⟩


/-- Registering a fresh id (one without an inverted-map entry) preserves
channel consistency. -/
theorem registerChan_ok (m : ChanMaps) (id : Nat) (key : String)
    (hOK : ChanOK m) (hfresh : m.inv id = none) :
    ChanOK (registerChan m id key) := by
  obtain ⟨hiff, hlists⟩ := hOK
  have hnotin : ∀ l, m.fwd key = some l → id ∉ l := by
    intro l hl hmem
    have h2 := (hiff id key).mpr ⟨l, hl, hmem⟩
    rw [hfresh] at h2
    exact Option.noConfusion h2
  have hfwdP : ∀ k, (registerChan m id key).fwd k
      = if k = key then some ((m.fwd key).getD [] ++ [id]) else m.fwd k := fun _ => rfl
  have hinvP : ∀ i, (registerChan m id key).inv i
      = if i = id then some key else m.inv i := fun _ => rfl
  constructor
  · intro i k
    rw [hinvP i, hfwdP k]
    by_cases hik : i = id <;> by_cases hkk : k = key
    · rw [if_pos hik, if_pos hkk]
      constructor
      · intro _
        exact ⟨_, rfl, by simp [hik]⟩
      · intro _
        rw [hkk]
    · rw [if_pos hik, if_neg hkk]
      constructor
      · intro hi
        exact absurd (Option.some.inj hi).symm hkk
      · rintro ⟨l, hl, hmem⟩
        rw [hik] at hmem
        have h2 := (hiff id k).mpr ⟨l, hl, hmem⟩
        rw [hfresh] at h2
        exact Option.noConfusion h2
    · rw [if_neg hik, if_pos hkk]
      constructor
      · intro hi
        rw [hkk] at hi
        obtain ⟨l, hl, hmem⟩ := (hiff i key).mp hi
        refine ⟨_, rfl, ?_⟩
        rw [hl, Option.getD_some]
        exact List.mem_append_left _ hmem
      · rintro ⟨l, hl, hmem⟩
        obtain rfl := (Option.some.inj hl).symm
        rcases List.mem_append.mp hmem with h1 | h1
        · rw [hkk]
          cases hfwd : m.fwd key with
          | none => rw [hfwd] at h1; simp at h1
          | some l0 =>
            rw [hfwd, Option.getD_some] at h1
            exact (hiff i key).mpr ⟨l0, hfwd, h1⟩
        · simp at h1
          exact absurd h1 hik
    · rw [if_neg hik, if_neg hkk]
      exact hiff i k
  · intro k l hl
    rw [hfwdP k] at hl
    by_cases hkk : k = key
    · rw [if_pos hkk] at hl
      obtain rfl := (Option.some.inj hl).symm
      refine ⟨by simp, ?_⟩
      cases hfwd : m.fwd key with
      | none => simp
      | some l0 =>
        rw [Option.getD_some]
        refine List.Nodup.append (hlists key l0 hfwd).2 (by simp) ?_
        intro a ha hb
        simp at hb
        rw [hb] at ha
        exact hnotin l0 hfwd ha
    · rw [if_neg hkk] at hl
      exact hlists k l hl

/-- Deregistering any id from a consistent channel succeeds and preserves
consistency (including removing a key whose id list empties). -/
theorem removeChan_ok (m : ChanMaps) (id : Nat) (hOK : ChanOK m) :
    ∃ m2, removeChan m id = some m2 ∧ ChanOK m2 := by
  obtain ⟨hiff, hlists⟩ := hOK
  cases hinv : m.inv id with
  | none =>
    exact ⟨m, by simp [removeChan, hinv], hiff, hlists⟩
  | some key =>
    obtain ⟨l, hl, hmem⟩ := (hiff id key).mp hinv
    have hnd := (hlists key l hl).2
    let m2 : ChanMaps := ⟨fun k =>
        if k = key then (if l.erase id = [] then none else some (l.erase id))
        else m.fwd k,
      fun i => if i = id then none else m.inv i⟩
    have hfwd2 : ∀ k, m2.fwd k
        = if k = key then (if l.erase id = [] then none else some (l.erase id))
          else m.fwd k := fun _ => rfl
    have hinv2 : ∀ i, m2.inv i = if i = id then none else m.inv i := fun _ => rfl
    refine ⟨m2, ?_, ?_, ?_⟩
    · simp only [removeChan, hinv, hl]
      rw [if_pos hmem]
    · intro i k
      rw [hinv2 i, hfwd2 k]
      by_cases hik : i = id
      · rw [if_pos hik]
        constructor
        · intro h2
          exact Option.noConfusion h2
        · rintro ⟨l2, hl2, hmem2⟩
          by_cases hkk : k = key
          · rw [if_pos hkk] at hl2
            by_cases hemp : l.erase id = []
            · rw [if_pos hemp] at hl2
              exact Option.noConfusion hl2
            · rw [if_neg hemp] at hl2
              obtain rfl := (Option.some.inj hl2).symm
              rw [hik] at hmem2
              exact absurd rfl (hnd.mem_erase_iff.mp hmem2).1
          · rw [if_neg hkk] at hl2
            rw [hik] at hmem2
            have h2 := (hiff id k).mpr ⟨l2, hl2, hmem2⟩
            rw [hinv] at h2
            exact (hkk (Option.some.inj h2).symm).elim
      · rw [if_neg hik]
        by_cases hkk : k = key
        · rw [if_pos hkk]
          by_cases hemp : l.erase id = []
          · rw [if_pos hemp]
            constructor
            · intro h2
              rw [hkk] at h2
              obtain ⟨l2, hl2, hmem2⟩ := (hiff i key).mp h2
              rw [hl] at hl2
              obtain rfl := Option.some.inj hl2
              have h3 : i ∈ l.erase id := hnd.mem_erase_iff.mpr ⟨hik, hmem2⟩
              rw [hemp] at h3
              cases h3
            · rintro ⟨l2, hl2, _⟩
              exact Option.noConfusion hl2
          · rw [if_neg hemp]
            constructor
            · intro h2
              rw [hkk] at h2
              obtain ⟨l2, hl2, hmem2⟩ := (hiff i key).mp h2
              rw [hl] at hl2
              obtain rfl := Option.some.inj hl2
              exact ⟨l.erase id, rfl, hnd.mem_erase_iff.mpr ⟨hik, hmem2⟩⟩
            · rintro ⟨l2, hl2, hmem2⟩
              obtain rfl := (Option.some.inj hl2).symm
              rw [hkk]
              exact (hiff i key).mpr ⟨l, hl, (hnd.mem_erase_iff.mp hmem2).2⟩
        · rw [if_neg hkk]
          exact hiff i k
    · intro k l2 hl2
      rw [hfwd2 k] at hl2
      by_cases hkk : k = key
      · rw [if_pos hkk] at hl2
        by_cases hemp : l.erase id = []
        · rw [if_pos hemp] at hl2
          exact Option.noConfusion hl2
        · rw [if_neg hemp] at hl2
          obtain rfl := (Option.some.inj hl2).symm
          exact ⟨hemp, hnd.erase id⟩
      · rw [if_neg hkk] at hl2
        exact hlists k l2 hl2

/-- C9: the sensor and actuator maps stay mutually consistent — an id is a
key of the inverted map iff it is a member of the forward list it points
to, forward lists never stay empty (a key whose id list empties is removed
entirely) and hold no duplicate ids. create_node (for any node type, with a
freshly allocated id) and delete_node both preserve this, delete_node
always succeeding on a consistent state. -/
theorem sensor_actuator_maps_consistent (s : RegNet) (h : MapsOK s) :
    (∀ ty id ps s2, s.sensor.inv id = none → s.actuator.inv id = none →
        create_node s ty id ps = some s2 → MapsOK s2)
    ∧ (∀ id, ∃ s3, delete_node s id = some s3 ∧ MapsOK s3) := by
  obtain ⟨hS, hA⟩ := h
  constructor
  · intro ty id ps s2 hfs hfa hc
    unfold create_node at hc
    by_cases hlive : s.live id
    · rw [if_pos hlive] at hc
      exact Option.noConfusion hc
    · rw [if_neg hlive] at hc
      by_cases hty : ty = "Sensor"
      · rw [if_pos hty] at hc
        cases hps : ps.datasource with
        | none =>
          rw [hps] at hc
          obtain rfl := (Option.some.inj hc)
          exact ⟨hS, hA⟩
        | some ds =>
          rw [hps] at hc
          obtain rfl := (Option.some.inj hc)
          exact ⟨registerChan_ok s.sensor id ds hS hfs, hA⟩
      · rw [if_neg hty] at hc
        by_cases hty2 : ty = "Actor"
        · rw [if_pos hty2] at hc
          cases hps : ps.datatarget with
          | none =>
            rw [hps] at hc
            obtain rfl := (Option.some.inj hc)
            exact ⟨hS, hA⟩
          | some dt =>
            rw [hps] at hc
            obtain rfl := (Option.some.inj hc)
            exact ⟨hS, registerChan_ok s.actuator id dt hA hfa⟩
        · rw [if_neg hty2] at hc
          obtain rfl := (Option.some.inj hc)
          exact ⟨hS, hA⟩
  · intro id
    obtain ⟨sm, hsm, hsmOK⟩ := removeChan_ok s.sensor id hS
    obtain ⟨am, ham, hamOK⟩ := removeChan_ok s.actuator id hA
    refine ⟨RegNet.mk (fun i => if i = id then false else s.live i) sm am,
      ?_, hsmOK, hamOK⟩
    unfold delete_node
    rw [hsm, ham]

/-- Witness for C9: register sensor 3 for "light" on the empty nodenet,
then delete a node from the empty nodenet. -/
theorem sensor_actuator_maps_consistent_witness :
    (∃ s2, create_node demoRegNet "Sensor" 3 ⟨some "light", none⟩ = some s2 ∧ MapsOK s2)
    ∧ (∃ s3, delete_node demoRegNet 3 = some s3 ∧ MapsOK s3) := by
  have hchan : ChanOK (⟨fun _ => none, fun _ => none⟩ : ChanMaps) := by
    constructor
    · intro id k
      constructor
      · intro h2
        exact Option.noConfusion h2
      · rintro ⟨l, hl, _⟩
        exact Option.noConfusion hl
    · intro k l hl
      exact Option.noConfusion hl
  have h : MapsOK demoRegNet := ⟨hchan, hchan⟩
  constructor
  · exact ⟨_, rfl,
      (sensor_actuator_maps_consistent demoRegNet h).1 "Sensor" 3 ⟨some "light", none⟩
        _ rfl rfl rfl⟩
  · exact (sensor_actuator_maps_consistent demoRegNet h).2 3

/-- Lookup after deleting a different key. -/
theorem lookupId_removeId_ne (l : List (Nat × NMInstance)) (x id : Nat) (hix : id ≠ x) :
    lookupId (removeId l x) id = lookupId l id := by
  induction l with
  | nil => rfl
  | cons p ps ih =>
    simp only [removeId]
    by_cases hpx : p.1 = x
    · rw [if_pos hpx, ih]
      simp only [lookupId]
      rw [if_neg (fun h => hix (h.symm.trans hpx))]
    · rw [if_neg hpx]
      simp only [lookupId]
      rw [ih]

/-- Lookup of a deleted key. -/
theorem lookupId_removeId_self (l : List (Nat × NMInstance)) (x : Nat) :
    lookupId (removeId l x) x = none := by
  induction l with
  | nil => rfl
  | cons p ps ih =>
    simp only [removeId]
    by_cases hpx : p.1 = x
    · rw [if_pos hpx]
      exact ih
    · rw [if_neg hpx]
      simp only [lookupId]
      rw [if_neg hpx]
      exact ih

/-- Lookup over an appended table. -/
theorem lookupId_append (l1 l2 : List (Nat × NMInstance)) (id : Nat) :
    lookupId (l1 ++ l2) id
      = match lookupId l1 id with
        | some v => some v
        | none => lookupId l2 id := by
  induction l1 with
  | nil => simp [lookupId]
  | cons p ps ih =>
    simp only [List.cons_append, lookupId]
    by_cases hp : p.1 = id
    · rw [if_pos hp, if_pos hp]
    · rw [if_neg hp, if_neg hp]
      exact ih

/-- Lookup of a present key in a duplicate-free table. -/
theorem lookupId_of_mem (l : List (Nat × NMInstance)) (id : Nat) (d : NMInstance)
    (hnd : (l.map Prod.fst).Nodup) (h : (id, d) ∈ l) :
    lookupId l id = some d := by
  induction l with
  | nil => cases h
  | cons p ps ih =>
    simp only [List.map_cons, List.nodup_cons] at hnd
    simp only [lookupId]
    rcases List.mem_cons.mp h with he | he
    · rw [← he]
      rw [if_pos rfl]
    · by_cases hp : p.1 = id
      · exfalso
        apply hnd.1
        rw [hp]
        exact List.mem_map_of_mem Prod.fst he
      · rw [if_neg hp]
        exact ih hnd.2 he

/-- Lookup of an absent key. -/
theorem lookupId_of_not_mem (l : List (Nat × NMInstance)) (id : Nat)
    (h : id ∉ l.map Prod.fst) :
    lookupId l id = none := by
  induction l with
  | nil => rfl
  | cons p ps ih =>
    simp only [List.map_cons, List.mem_cons] at h
    push_neg at h
    simp only [lookupId]
    rw [if_neg (fun h2 => h.1 h2.symm)]
    exact ih h.2

/-- recreateData keeps the type name. -/
theorem recreateData_typeName (defs : List (String × NMDef)) (d : NMInstance) :
    (recreateData defs d).typeName = d.typeName := by
  unfold recreateData
  cases defLookup defs d.typeName <;> rfl

/-- Lookup in the recreated-entries table. -/
theorem lookupId_map_recreate (defs : List (String × NMDef))
    (L : List (Nat × NMInstance)) (id : Nat) :
    lookupId (L.map (fun p => (p.1, recreateData defs p.2))) id
      = (lookupId L id).map (recreateData defs) := by
  induction L with
  | nil => rfl
  | cons p ps ih =>
    simp only [List.map_cons, lookupId]
    by_cases hp : p.1 = id
    · rw [if_pos hp, if_pos hp]
      rfl
    · rw [if_neg hp, if_neg hp]
      exact ih

/-- Deleting a list of ids preserves lookups of other ids. -/
theorem foldl_delete_lookup_not_mem (L : List (Nat × NMInstance)) :
    ∀ (s : NMNet) (id : Nat), id ∉ L.map Prod.fst →
      lookupId ((L.foldl (fun st p => nmDeleteNode st p.1) s).instances) id
        = lookupId s.instances id := by
  induction L with
  | nil => intro s id _; rfl
  | cons p ps ih =>
    intro s id h
    simp only [List.map_cons, List.mem_cons] at h
    push_neg at h
    simp only [List.foldl_cons]
    rw [ih _ id h.2]
    show lookupId (removeId s.instances p.1) id = _
    exact lookupId_removeId_ne _ _ _ h.1

/-- Deleting a list of ids removes their instances. -/
theorem foldl_delete_lookup_mem (L : List (Nat × NMInstance)) :
    ∀ (s : NMNet) (id : Nat), id ∈ L.map Prod.fst →
      lookupId ((L.foldl (fun st p => nmDeleteNode st p.1) s).instances) id = none := by
  induction L with
  | nil => intro s id h; cases h
  | cons p ps ih =>
    intro s id h
    simp only [List.map_cons, List.mem_cons] at h
    simp only [List.foldl_cons]
    by_cases hps : id ∈ ps.map Prod.fst
    · exact ih _ id hps
    · have he : id = p.1 := by
        rcases h with he | he
        · exact he
        · exact absurd he hps
      rw [foldl_delete_lookup_not_mem ps _ id hps]
      show lookupId (removeId s.instances p.1) id = none
      rw [he]
      exact lookupId_removeId_self _ _

/-- Deleting a list of ids zeroes exactly their link rows and columns. -/
theorem foldl_delete_w (L : List (Nat × NMInstance)) :
    ∀ (s : NMNet) (r c : Nat),
      (L.foldl (fun st p => nmDeleteNode st p.1) s).w r c
        = if r ∈ L.map Prod.fst ∨ c ∈ L.map Prod.fst then 0 else s.w r c := by
  induction L with
  | nil =>
    intro s r c
    simp
  | cons p ps ih =>
    intro s r c
    simp only [List.foldl_cons]
    rw [ih]
    simp only [List.map_cons, List.mem_cons]
    by_cases h1 : r ∈ ps.map Prod.fst ∨ c ∈ ps.map Prod.fst
    · rw [if_pos h1, if_pos (by tauto)]
    · rw [if_neg h1]
      show (if r = p.1 ∨ c = p.1 then 0 else s.w r c) = _
      by_cases h2 : r = p.1 ∨ c = p.1
      · rw [if_pos h2, if_pos (by tauto)]
      · rw [if_neg h2, if_neg (by tauto)]

/-- Deletions do not touch the warnings list. -/
theorem foldl_delete_warnings (L : List (Nat × NMInstance)) :
    ∀ s : NMNet, (L.foldl (fun st p => nmDeleteNode st p.1) s).warnings = s.warnings := by
  induction L with
  | nil => intro s; rfl
  | cons p ps ih =>
    intro s
    simp only [List.foldl_cons]
    rw [ih]
    rfl

/-- Recreations do not touch the link matrix (links are lost, not
restored). -/
theorem foldl_create_w (defs : List (String × NMDef)) (L : List (Nat × NMInstance)) :
    ∀ (s : NMNet) (r c : Nat),
      (L.foldl (fun st p => nmCreateNode defs st p.1 p.2) s).w r c = s.w r c := by
  induction L with
  | nil => intro s r c; rfl
  | cons p ps ih =>
    intro s r c
    simp only [List.foldl_cons]
    rw [ih]
    unfold nmCreateNode
    cases defLookup defs p.2.typeName <;> rfl

/-- Recreations do not touch the warnings list. -/
theorem foldl_create_warnings (defs : List (String × NMDef))
    (L : List (Nat × NMInstance)) :
    ∀ s : NMNet, (L.foldl (fun st p => nmCreateNode defs st p.1 p.2) s).warnings
      = s.warnings := by
  induction L with
  | nil => intro s; rfl
  | cons p ps ih =>
    intro s
    simp only [List.foldl_cons]
    rw [ih]
    unfold nmCreateNode
    cases defLookup defs p.2.typeName <;> rfl

/-- The recreate fold appends one recreated entry per saved instance. -/
theorem foldl_create_instances (defs : List (String × NMDef)) :
    ∀ L : List (Nat × NMInstance),
      (∀ p ∈ L, (defLookup defs p.2.typeName).isSome = true) →
      ∀ s : NMNet, (L.foldl (fun st p => nmCreateNode defs st p.1 p.2) s).instances
        = s.instances ++ L.map (fun p => (p.1, recreateData defs p.2)) := by
  intro L
  induction L with
  | nil => intro _ s; simp
  | cons p ps ih =>
    intro hL s
    simp only [List.foldl_cons]
    obtain ⟨nd, hnd⟩ := Option.isSome_iff_exists.mp (hL p (List.mem_cons_self p ps))
    rw [ih (fun q hq => hL q (List.mem_cons_of_mem p hq)) _]
    have hcr : nmCreateNode defs s p.1 p.2
        = { s with
            instances := s.instances ++ [(p.1, recreateData defs p.2)],
            numericType := fun i => if i = p.1
              then get_numerical_node_type defs p.2.typeName else s.numericType i } := by
      unfold nmCreateNode recreateData
      rw [hnd]
    rw [hcr]
    simp

/-- Every instance classified for recreation still has a definition. -/
theorem reloadRecreates_isSome (s : NMNet) (defs : List (String × NMDef)) :
    ∀ p ∈ reloadRecreates s defs, (defLookup defs p.2.typeName).isSome = true := by
  intro p hp
  have h2 := (List.mem_filter.mp hp).2
  cases hd : defLookup defs p.2.typeName with
  | some nd => rfl
  | none =>
    rw [hd] at h2
    simp at h2

/-- What reloadCore leaves in the instance table: recreated entries for the
resized group, nothing for the dropped group, the old entry otherwise. -/
theorem reloadCore_lookup (s : NMNet) (defs : List (String × NMDef)) (id : Nat) :
    lookupId (reloadCore s defs).instances id
      = if id ∈ (reloadRecreates s defs).map Prod.fst
        then (lookupId (reloadRecreates s defs) id).map (recreateData defs)
        else if id ∈ (reloadDeletes s defs).map Prod.fst then none
        else lookupId s.instances id := by
  simp only [reloadCore]
  rw [foldl_create_instances defs (reloadRecreates s defs) (reloadRecreates_isSome s defs)]
  rw [lookupId_append]
  by_cases hR : id ∈ (reloadRecreates s defs).map Prod.fst
  · rw [if_pos hR]
    rw [foldl_delete_lookup_mem (reloadRecreates s defs) _ id hR]
    exact lookupId_map_recreate defs _ id
  · rw [if_neg hR]
    have h2 : lookupId ((reloadRecreates s defs).map
        (fun p => (p.1, recreateData defs p.2))) id = none := by
      apply lookupId_of_not_mem
      intro hmem2
      apply hR
      obtain ⟨q, hq, hq1⟩ := List.mem_map.mp hmem2
      obtain ⟨q0, hq0, hq02⟩ := List.mem_map.mp hq
      refine List.mem_map.mpr ⟨q0, hq0, ?_⟩
      rw [← hq1, ← hq02]
    rw [foldl_delete_lookup_not_mem (reloadRecreates s defs) _ id hR]
    by_cases hD : id ∈ (reloadDeletes s defs).map Prod.fst
    · rw [if_pos hD]
      rw [foldl_delete_lookup_mem (reloadDeletes s defs) _ id hD]
      exact h2
    · rw [if_neg hD]
      rw [foldl_delete_lookup_not_mem (reloadDeletes s defs) _ id hD]
      show (match lookupId s.instances id with
        | some v => some v
        | none => lookupId ((reloadRecreates s defs).map
            (fun p => (p.1, recreateData defs p.2))) id) = lookupId s.instances id
      cases lookupId s.instances id with
      | some v => rfl
      | none => exact h2

/-- C4 counterexample: the claim as stated says a recreated native-module
instance keeps its state. Under demoNMDefs the element count of MyModule
changes from 2 to 3, so instance 7 is deleted and recreated — but
create_node (lines 777-784) is passed only parameters, never the saved
state, so the result differs from the claim-predicted record, which keeps
state [("memory", "42")]. -/
theorem reload_state_not_preserved :
    findInst (reload_native_modules demoNMNet demoNMDefs) 7
      ≠ some { demoNMInstance with elementCount := 3 } := by
  decide

/-- C4 amended: on reload, native-module instances are re-resolved by type
NAME against the current catalog, never by the persisted numeric type id.
An instance whose type name is no longer defined is deleted, with a
reported warning; an instance whose required element count changed is
deleted and recreated under the same uid with its type, parent nodespace,
position, name and parameters preserved, but its LINKS AND STATE lost (the
recreate call passes parameters only, no state); an unchanged instance
survives as it was, its numeric type tag recomputed from its name. -/
theorem reload_native_modules_behavior (s : NMNet) (defs : List (String × NMDef))
    (hnd : (s.instances.map Prod.fst).Nodup) (id : Nat) (inst : NMInstance)
    (hmem : (id, inst) ∈ s.instances) :
    (defLookup defs inst.typeName = none →
      findInst (reload_native_modules s defs) id = none
      ∧ ("No more definition available for node type " ++ inst.typeName)
          ∈ (reload_native_modules s defs).warnings)
    ∧ (∀ nd, defLookup defs inst.typeName = some nd →
        inst.elementCount ≠ nd.elementCount →
        findInst (reload_native_modules s defs) id
            = some { inst with state := [], elementCount := nd.elementCount }
        ∧ (∀ j, (reload_native_modules s defs).w id j = 0
            ∧ (reload_native_modules s defs).w j id = 0)
        ∧ (reload_native_modules s defs).numericType id
            = get_numerical_node_type defs inst.typeName)
    ∧ (∀ nd, defLookup defs inst.typeName = some nd →
        inst.elementCount = nd.elementCount →
        findInst (reload_native_modules s defs) id = some inst
        ∧ (reload_native_modules s defs).numericType id
            = get_numerical_node_type defs inst.typeName) := by
  have hfind : findInst (reload_native_modules s defs) id
      = lookupId (reloadCore s defs).instances id := rfl
  have hWarn : (reload_native_modules s defs).warnings
      = s.warnings ++ reloadWarnList s defs := by
    show (reloadCore s defs).warnings = _
    simp only [reloadCore]
    rw [foldl_create_warnings, foldl_delete_warnings, foldl_delete_warnings]
  have hCoreW : ∀ r c, (reload_native_modules s defs).w r c
      = if r ∈ (reloadRecreates s defs).map Prod.fst
          ∨ c ∈ (reloadRecreates s defs).map Prod.fst
        then 0
        else if r ∈ (reloadDeletes s defs).map Prod.fst
            ∨ c ∈ (reloadDeletes s defs).map Prod.fst
        then 0 else s.w r c := by
    intro r c
    show (reloadCore s defs).w r c = _
    simp only [reloadCore]
    rw [foldl_create_w, foldl_delete_w, foldl_delete_w]
  have hNum : ∀ i, (reload_native_modules s defs).numericType i
      = match lookupId (reloadCore s defs).instances i with
        | some d => get_numerical_node_type defs d.typeName
        | none => (reloadCore s defs).numericType i := fun _ => rfl
  have huniq : ∀ d, (id, d) ∈ s.instances → d = inst := by
    intro d hd
    have h1 := lookupId_of_mem s.instances id d hnd hd
    have h2 := lookupId_of_mem s.instances id inst hnd hmem
    rw [h1] at h2
    exact Option.some.inj h2
  refine ⟨?_, ?_, ?_⟩
  · intro hdef
    have hDmem : (id, inst) ∈ reloadDeletes s defs := by
      apply List.mem_filter.mpr
      refine ⟨hmem, ?_⟩
      show (defLookup defs inst.typeName).isNone = true
      rw [hdef]
      rfl
    have hidD : id ∈ (reloadDeletes s defs).map Prod.fst :=
      List.mem_map_of_mem Prod.fst hDmem
    have hidR : id ∉ (reloadRecreates s defs).map Prod.fst := by
      intro hmem2
      obtain ⟨q, hq, hq1⟩ := List.mem_map.mp hmem2
      have hqf := List.mem_filter.mp hq
      have hq2 : q.2 = inst := huniq q.2 (by rw [← hq1]; exact hqf.1)
      have hpred := hqf.2
      simp only [hq2, hdef] at hpred
      exact Bool.noConfusion hpred
    constructor
    · rw [hfind, reloadCore_lookup, if_neg hidR, if_pos hidD]
    · rw [hWarn]
      apply List.mem_append_right
      apply List.mem_append_left
      exact List.mem_map_of_mem _ hDmem
  · intro nd hdef hne
    have hRmem : (id, inst) ∈ reloadRecreates s defs := by
      apply List.mem_filter.mpr
      refine ⟨hmem, ?_⟩
      show (match defLookup defs inst.typeName with
        | some nd2 => decide (inst.elementCount ≠ nd2.elementCount)
        | none => false) = true
      rw [hdef]
      exact decide_eq_true hne
    have hidR : id ∈ (reloadRecreates s defs).map Prod.fst :=
      List.mem_map_of_mem Prod.fst hRmem
    have hRnd : ((reloadRecreates s defs).map Prod.fst).Nodup :=
      List.Nodup.sublist (List.Sublist.map Prod.fst (List.filter_sublist s.instances)) hnd
    have hlookR : lookupId (reloadRecreates s defs) id = some inst :=
      lookupId_of_mem _ _ _ hRnd hRmem
    refine ⟨?_, ?_, ?_⟩
    · rw [hfind, reloadCore_lookup, if_pos hidR, hlookR]
      show some (recreateData defs inst) = _
      unfold recreateData
      rw [hdef]
    · intro j
      constructor
      · rw [hCoreW, if_pos (Or.inl hidR)]
      · rw [hCoreW, if_pos (Or.inr hidR)]
    · rw [hNum, reloadCore_lookup, if_pos hidR, hlookR]
      show get_numerical_node_type defs (recreateData defs inst).typeName = _
      rw [recreateData_typeName]
  · intro nd hdef heq
    have hidD : id ∉ (reloadDeletes s defs).map Prod.fst := by
      intro hmem2
      obtain ⟨q, hq, hq1⟩ := List.mem_map.mp hmem2
      have hqf := List.mem_filter.mp hq
      have hq2 : q.2 = inst := huniq q.2 (by rw [← hq1]; exact hqf.1)
      have hpred := hqf.2
      simp only [hq2, hdef] at hpred
      simp at hpred
    have hidR : id ∉ (reloadRecreates s defs).map Prod.fst := by
      intro hmem2
      obtain ⟨q, hq, hq1⟩ := List.mem_map.mp hmem2
      have hqf := List.mem_filter.mp hq
      have hq2 : q.2 = inst := huniq q.2 (by rw [← hq1]; exact hqf.1)
      have hpred := hqf.2
      simp only [hq2, hdef] at hpred
      exact (of_decide_eq_true hpred) heq
    constructor
    · rw [hfind, reloadCore_lookup, if_neg hidR, if_neg hidD]
      exact lookupId_of_mem s.instances id inst hnd hmem
    · rw [hNum, reloadCore_lookup, if_neg hidR, if_neg hidD,
        lookupId_of_mem s.instances id inst hnd hmem]

/-- Witness for C4 (amended): instance 7 of MyModule (2 elements, state
[("memory", "42")]) is recreated under demoNMDefs (3 elements) with its
parameters kept, its state emptied, and its numeric type re-resolved by
name; its links are zeroed. -/
theorem reload_native_modules_behavior_witness :
    findInst (reload_native_modules demoNMNet demoNMDefs) 7
      = some { demoNMInstance with state := [], elementCount := 3 }
    ∧ (reload_native_modules demoNMNet demoNMDefs).w 7 9 = 0
    ∧ (reload_native_modules demoNMNet demoNMDefs).numericType 7
        = get_numerical_node_type demoNMDefs "MyModule" := by
  have h := (reload_native_modules_behavior demoNMNet demoNMDefs (by decide) 7
      demoNMInstance (by decide)).2.1 ⟨["gen", "sub", "sur"], ["gen"]⟩ (by decide) (by decide)
  exact ⟨h.1, (h.2.1 9).1, h.2.2⟩

end Micropsi
